import Mathlib

/-!
Verification of the benchmark execution and aggregation engine of
`src/apps/benchmark.py` (multi-tool LAS/LAZ performance comparison).

Python floats are modelled as exact rationals (`Rat`), Python ints as `Int`
(loop indices as `Nat` where the source uses `range`), Python strings as
`String` (child-process protocol lines as `List Char` so that splitting on a
comma is structurally faithful).  Fallible code is modelled with `Except`.
-/

namespace Benchmark

/-- Model of the `BenchResult` dataclass: one timed invocation. -/
structure BenchResult where
  tool : String
  operation : String
  threads : Int
  iteration : Int
  time_s : Rat
deriving DecidableEq, Repr

/-- Model of the `BenchSummary` dataclass: aggregated statistics for one
(tool, operation, threads) combination. -/
structure BenchSummary where
  tool : String
  operation : String
  threads : Int
  n : Nat
  mean_s : Rat
  min_s : Rat
  max_s : Rat
  num_points : Int
  file_size_bytes : Int
deriving DecidableEq, Repr

/-- Model of the `BenchSummary.pts_per_s` property:
`self.num_points / self.mean_s if self.mean_s > 0 else 0.0`. -/
def pts_per_s (s : BenchSummary) : Rat :=
  if 0 < s.mean_s then (s.num_points : Rat) / s.mean_s else 0

/-- Model of the `BenchSummary.mb_per_s` property:
`(self.file_size_bytes / 1e6) / self.mean_s if self.mean_s > 0 else 0.0`. -/
def mb_per_s (s : BenchSummary) : Rat :=
  if 0 < s.mean_s then ((s.file_size_bytes : Rat) / 1000000) / s.mean_s else 0

/-- The grouping key used by `aggregate`: `(r.tool, r.operation, r.threads)`. -/
abbrev BenchKey := String × String × Int

/-- The key of a raw sample, as computed in the body of `aggregate`. -/
def keyOf (r : BenchResult) : BenchKey := (r.tool, r.operation, r.threads)

/-- The key fields of a summary. -/
def summaryKey (s : BenchSummary) : BenchKey := (s.tool, s.operation, s.threads)

/-- Python `min(times)` on a non-empty list (`0` on `[]`, a case `aggregate`
never produces). -/
def listMin : List Rat → Rat
  | [] => 0
  | [t] => t
  | t :: u :: ts => min t (listMin (u :: ts))

/-- Python `max(times)` on a non-empty list (`0` on `[]`, a case `aggregate`
never produces). -/
def listMax : List Rat → Rat
  | [] => 0
  | [t] => t
  | t :: u :: ts => max t (listMax (u :: ts))

/-- Build one `BenchSummary` from a group, as in the loop body of `aggregate`:
`n = len(times)`, `mean_s = sum(times)/len(times)`, `min_s = min(times)`,
`max_s = max(times)`. -/
def mkSummary (k : BenchKey) (times : List Rat) (num_points file_size_bytes : Int) :
    BenchSummary :=
  { tool := k.1
    operation := k.2.1
    threads := k.2.2
    n := times.length
    mean_s := times.sum / (times.length : Rat)
    min_s := listMin times
    max_s := listMax times
    num_points := num_points
    file_size_bytes := file_size_bytes }

/-- One step of `groups.setdefault(key, []).append(r.time_s)` on an
insertion-ordered association list (the model of the Python dict `groups`). -/
def insertSample (groups : List (BenchKey × List Rat)) (k : BenchKey) (t : Rat) :
    List (BenchKey × List Rat) :=
  match groups with
  | [] => [(k, [t])]
  | (k0, ts) :: rest =>
      if k0 = k then (k0, ts ++ [t]) :: rest
      else (k0, ts) :: insertSample rest k t

/-- The grouping loop of `aggregate`: `for r in raw: groups.setdefault(...)`. -/
def groupSamples (raw : List BenchResult) : List (BenchKey × List Rat) :=
  raw.foldl (fun g r => insertSample g (keyOf r) r.time_s) []

/-- Model of `aggregate(raw, num_points, file_size_bytes)`. -/
def aggregate (raw : List BenchResult) (num_points file_size_bytes : Int) :
    List BenchSummary :=
  (groupSamples raw).map (fun e => mkSummary e.1 e.2 num_points file_size_bytes)

/-- The multiset of times belonging to key `k` in `raw`, in arrival order. -/
def groupTimes (raw : List BenchResult) (k : BenchKey) : List Rat :=
  (raw.filter (fun r => keyOf r = k)).map BenchResult.time_s

/-- Lookup of a key in the association list (first match). -/
def findTimes : List (BenchKey × List Rat) → BenchKey → List Rat
  | [], _ => []
  | (k0, ts) :: rest, k => if k0 = k then ts else findTimes rest k

-- ── Association-list lemmas ──────────────────────────────────────────────────

theorem findTimes_insertSample (g : List (BenchKey × List Rat)) (k : BenchKey)
    (t : Rat) (k' : BenchKey) :
    findTimes (insertSample g k t) k' =
      if k' = k then findTimes g k' ++ [t] else findTimes g k' := by
  induction g with
  | nil =>
      by_cases h : k' = k
      · subst h; simp [insertSample, findTimes]
      · have h' : ¬ k = k' := fun hc => h hc.symm
        simp [insertSample, findTimes, h, h']
  | cons hd tl ih =>
      obtain ⟨k0, ts0⟩ := hd
      by_cases h0 : k0 = k
      · subst h0
        by_cases h : k' = k0
        · subst h; simp [insertSample, findTimes]
        · have h' : ¬ k0 = k' := fun hc => h hc.symm
          simp [insertSample, findTimes, h, h']
      · by_cases h : k0 = k'
        · subst h
          have hk : ¬ k0 = k := h0
          simp [insertSample, findTimes, h0, hk]
        · simp [insertSample, findTimes, h0, h, ih]

theorem findTimes_foldl (raw : List BenchResult) :
    ∀ (g : List (BenchKey × List Rat)) (k : BenchKey),
      findTimes (raw.foldl (fun g r => insertSample g (keyOf r) r.time_s) g) k =
        findTimes g k ++ groupTimes raw k := by
  induction raw with
  | nil => intro g k; simp [groupTimes]
  | cons r rest ih =>
      intro g k
      simp only [List.foldl_cons]
      rw [ih, findTimes_insertSample]
      by_cases h : k = keyOf r
      · subst h
        simp [groupTimes, List.filter_cons, List.append_assoc]
      · have h2 : ¬ keyOf r = k := fun hc => h hc.symm
        simp [groupTimes, List.filter_cons, h, h2]

theorem findTimes_groupSamples (raw : List BenchResult) (k : BenchKey) :
    findTimes (groupSamples raw) k = groupTimes raw k := by
  have := findTimes_foldl raw [] k
  simpa [findTimes, groupSamples] using this

theorem keys_insertSample (g : List (BenchKey × List Rat)) (k : BenchKey) (t : Rat) :
    (insertSample g k t).map Prod.fst =
      if k ∈ g.map Prod.fst then g.map Prod.fst else g.map Prod.fst ++ [k] := by
  induction g with
  | nil => simp [insertSample]
  | cons hd tl ih =>
      obtain ⟨k0, ts0⟩ := hd
      by_cases h0 : k0 = k
      · subst h0
        simp [insertSample]
      · have hne : ¬ k = k0 := fun hc => h0 hc.symm
        by_cases hmem : k ∈ tl.map Prod.fst <;>
          simp [insertSample, h0, ih, hne, hmem]

theorem nodup_keys_insertSample (g : List (BenchKey × List Rat)) (k : BenchKey)
    (t : Rat) (h : (g.map Prod.fst).Nodup) :
    ((insertSample g k t).map Prod.fst).Nodup := by
  rw [keys_insertSample]
  by_cases hmem : k ∈ g.map Prod.fst
  · rw [if_pos hmem]; exact h
  · rw [if_neg hmem]
    refine List.Nodup.append h (List.nodup_singleton k) ?_
    intro a ha hb
    rw [List.mem_singleton] at hb
    subst hb
    exact hmem ha

theorem nodup_keys_foldl (raw : List BenchResult) :
    ∀ (g : List (BenchKey × List Rat)), (g.map Prod.fst).Nodup →
      (((raw.foldl (fun g r => insertSample g (keyOf r) r.time_s) g)).map
        Prod.fst).Nodup := by
  induction raw with
  | nil => intro g hg; simpa using hg
  | cons r rest ih =>
      intro g hg
      simp only [List.foldl_cons]
      exact ih _ (nodup_keys_insertSample g (keyOf r) r.time_s hg)

theorem nodup_keys_groupSamples (raw : List BenchResult) :
    ((groupSamples raw).map Prod.fst).Nodup :=
  nodup_keys_foldl raw [] (by simp)

theorem ne_nil_insertSample (g : List (BenchKey × List Rat)) (k : BenchKey)
    (t : Rat) (h : ∀ p ∈ g, p.2 ≠ []) :
    ∀ p ∈ insertSample g k t, p.2 ≠ [] := by
  induction g with
  | nil => intro p hp; simp [insertSample] at hp; subst hp; simp
  | cons hd tl ih =>
      obtain ⟨k0, ts0⟩ := hd
      intro p hp
      by_cases h0 : k0 = k
      · subst h0
        simp [insertSample] at hp
        rcases hp with hp | hp
        · subst hp; simp
        · exact h p (List.mem_cons_of_mem _ hp)
      · simp [insertSample, h0] at hp
        rcases hp with hp | hp
        · subst hp
          exact h (k0, ts0) (List.mem_cons_self _ _)
        · exact ih (fun q hq => h q (List.mem_cons_of_mem _ hq)) p hp

theorem ne_nil_foldl (raw : List BenchResult) :
    ∀ (g : List (BenchKey × List Rat)), (∀ p ∈ g, p.2 ≠ []) →
      ∀ p ∈ raw.foldl (fun g r => insertSample g (keyOf r) r.time_s) g,
        p.2 ≠ [] := by
  induction raw with
  | nil => intro g hg; simpa using hg
  | cons r rest ih =>
      intro g hg
      simp only [List.foldl_cons]
      exact ih _ (ne_nil_insertSample g (keyOf r) r.time_s hg)

theorem ne_nil_groupSamples (raw : List BenchResult) :
    ∀ p ∈ groupSamples raw, p.2 ≠ [] :=
  ne_nil_foldl raw [] (by simp)

theorem findTimes_of_mem_nodup (g : List (BenchKey × List Rat)) (k : BenchKey)
    (ts : List Rat) (hnd : (g.map Prod.fst).Nodup) (hm : (k, ts) ∈ g) :
    findTimes g k = ts := by
  induction g with
  | nil => simp at hm
  | cons hd tl ih =>
      obtain ⟨k0, ts0⟩ := hd
      have hnd' : k0 ∉ tl.map Prod.fst ∧ (tl.map Prod.fst).Nodup := by
        rw [List.map_cons, List.nodup_cons] at hnd
        exact hnd
      rcases List.mem_cons.mp hm with hh | hh
      · injection hh with h1 h2
        subst h1
        subst h2
        simp [findTimes]
      · have hk0 : ¬ k0 = k := by
          intro hc
          subst hc
          exact hnd'.1 (List.mem_map.mpr ⟨(k0, ts), hh, rfl⟩)
        simp only [findTimes, if_neg hk0]
        exact ih hnd'.2 hh

theorem mem_of_mem_keys (g : List (BenchKey × List Rat)) (k : BenchKey)
    (h : k ∈ g.map Prod.fst) : (k, findTimes g k) ∈ g := by
  induction g with
  | nil => simp at h
  | cons hd tl ih =>
      obtain ⟨k0, ts0⟩ := hd
      by_cases h0 : k0 = k
      · subst h0
        have : findTimes ((k0, ts0) :: tl) k0 = ts0 := by simp [findTimes]
        rw [this]
        exact List.mem_cons_self _ _
      · have hmem : k ∈ tl.map Prod.fst := by
          rw [List.map_cons] at h
          rcases List.mem_cons.mp h with hh | hh
          · exact absurd hh.symm h0
          · exact hh
        have : findTimes ((k0, ts0) :: tl) k = findTimes tl k := by
          simp [findTimes, h0]
        rw [this]
        exact List.mem_cons_of_mem _ (ih hmem)

theorem findTimes_eq_nil_of_not_mem (g : List (BenchKey × List Rat))
    (k : BenchKey) (h : k ∉ g.map Prod.fst) : findTimes g k = [] := by
  induction g with
  | nil => rfl
  | cons hd tl ih =>
      obtain ⟨k0, ts0⟩ := hd
      have h0 : ¬ k0 = k := by
        intro hc
        apply h
        simp [hc]
      have hnot : k ∉ tl.map Prod.fst := by
        intro hc
        apply h
        simp [hc]
      simp only [findTimes, if_neg h0]
      exact ih hnot

theorem mem_keys_groupSamples (raw : List BenchResult) (k : BenchKey) :
    k ∈ (groupSamples raw).map Prod.fst ↔ groupTimes raw k ≠ [] := by
  constructor
  · intro h
    have hmem := mem_of_mem_keys _ _ h
    have hne := ne_nil_groupSamples raw _ hmem
    simpa [findTimes_groupSamples] using hne
  · intro h
    by_contra hc
    apply h
    rw [← findTimes_groupSamples]
    exact findTimes_eq_nil_of_not_mem _ _ hc

/-- Characterization of membership in `aggregate`'s output. -/
theorem mem_aggregate_iff (raw : List BenchResult) (np fs : Int)
    (s : BenchSummary) :
    s ∈ aggregate raw np fs ↔
      ∃ k, groupTimes raw k ≠ [] ∧ s = mkSummary k (groupTimes raw k) np fs := by
  unfold aggregate
  rw [List.mem_map]
  constructor
  · rintro ⟨⟨k, ts⟩, hmem, rfl⟩
    have hts : findTimes (groupSamples raw) k = ts :=
      findTimes_of_mem_nodup _ _ _ (nodup_keys_groupSamples raw) hmem
    have hts' : ts = groupTimes raw k := by
      rw [← hts, findTimes_groupSamples]
    refine ⟨k, ?_, by rw [← hts']⟩
    rw [← hts']
    exact ne_nil_groupSamples raw _ hmem
  · rintro ⟨k, hne, rfl⟩
    have hk : k ∈ (groupSamples raw).map Prod.fst :=
      (mem_keys_groupSamples raw k).mpr hne
    refine ⟨(k, findTimes (groupSamples raw) k), mem_of_mem_keys _ _ hk, ?_⟩
    rw [findTimes_groupSamples]

-- ── min / max / mean lemmas ──────────────────────────────────────────────────

theorem listMin_cons_cons (t u : Rat) (ts : List Rat) :
    listMin (t :: u :: ts) = min t (listMin (u :: ts)) := rfl

theorem listMax_cons_cons (t u : Rat) (ts : List Rat) :
    listMax (t :: u :: ts) = max t (listMax (u :: ts)) := rfl

theorem listMin_mem : ∀ (l : List Rat), l ≠ [] → listMin l ∈ l := by
  intro l
  induction l with
  | nil => intro h; exact absurd rfl h
  | cons t ts ih =>
      intro _
      cases ts with
      | nil => simp [listMin]
      | cons u ts' =>
          rw [listMin_cons_cons]
          rcases le_total t (listMin (u :: ts')) with h | h
          · rw [min_eq_left h]
            exact List.mem_cons_self _ _
          · rw [min_eq_right h]
            exact List.mem_cons_of_mem _ (ih (by simp))

theorem listMin_le : ∀ (l : List Rat), ∀ x ∈ l, listMin l ≤ x := by
  intro l
  induction l with
  | nil => intro x hx; simp at hx
  | cons t ts ih =>
      intro x hx
      cases ts with
      | nil =>
          rw [List.mem_singleton] at hx
          subst hx
          simp [listMin]
      | cons u ts' =>
          rw [listMin_cons_cons]
          rcases List.mem_cons.mp hx with hh | hh
          · subst hh; exact min_le_left _ _
          · exact le_trans (min_le_right _ _) (ih x hh)

theorem listMax_mem : ∀ (l : List Rat), l ≠ [] → listMax l ∈ l := by
  intro l
  induction l with
  | nil => intro h; exact absurd rfl h
  | cons t ts ih =>
      intro _
      cases ts with
      | nil => simp [listMax]
      | cons u ts' =>
          rw [listMax_cons_cons]
          rcases le_total t (listMax (u :: ts')) with h | h
          · rw [max_eq_right h]
            exact List.mem_cons_of_mem _ (ih (by simp))
          · rw [max_eq_left h]
            exact List.mem_cons_self _ _

theorem le_listMax : ∀ (l : List Rat), ∀ x ∈ l, x ≤ listMax l := by
  intro l
  induction l with
  | nil => intro x hx; simp at hx
  | cons t ts ih =>
      intro x hx
      cases ts with
      | nil =>
          rw [List.mem_singleton] at hx
          subst hx
          simp [listMax]
      | cons u ts' =>
          rw [listMax_cons_cons]
          rcases List.mem_cons.mp hx with hh | hh
          · subst hh; exact le_max_left _ _
          · exact le_trans (ih x hh) (le_max_right _ _)

theorem length_mul_listMin_le_sum :
    ∀ (l : List Rat), l ≠ [] → (l.length : Rat) * listMin l ≤ l.sum := by
  intro l
  induction l with
  | nil => intro h; exact absurd rfl h
  | cons t ts ih =>
      intro _
      cases ts with
      | nil => simp [listMin]
      | cons u ts' =>
          have hdef := listMin_cons_cons t u ts'
          have hlen : (((t :: u :: ts').length : Nat) : Rat) =
              (((u :: ts').length : Nat) : Rat) + 1 := by
            push_cast [List.length_cons]
            ring
          rw [hdef, hlen, List.sum_cons]
          have h1 : min t (listMin (u :: ts')) ≤ t := min_le_left _ _
          have h2 : (((u :: ts').length : Nat) : Rat) * min t (listMin (u :: ts')) ≤
              (((u :: ts').length : Nat) : Rat) * listMin (u :: ts') := by
            apply mul_le_mul_of_nonneg_left (min_le_right _ _)
            positivity
          have h3 := ih (by simp)
          calc ((((u :: ts').length : Nat) : Rat) + 1) * min t (listMin (u :: ts'))
              = (((u :: ts').length : Nat) : Rat) * min t (listMin (u :: ts')) +
                min t (listMin (u :: ts')) := by ring
            _ ≤ (((u :: ts').length : Nat) : Rat) * listMin (u :: ts') + t :=
                add_le_add h2 h1
            _ ≤ (u :: ts').sum + t := add_le_add_right h3 t
            _ = t + (u :: ts').sum := by ring

theorem sum_le_length_mul_listMax :
    ∀ (l : List Rat), l ≠ [] → l.sum ≤ (l.length : Rat) * listMax l := by
  intro l
  induction l with
  | nil => intro h; exact absurd rfl h
  | cons t ts ih =>
      intro _
      cases ts with
      | nil => simp [listMax]
      | cons u ts' =>
          have hdef := listMax_cons_cons t u ts'
          have hlen : (((t :: u :: ts').length : Nat) : Rat) =
              (((u :: ts').length : Nat) : Rat) + 1 := by
            push_cast [List.length_cons]
            ring
          rw [hdef, hlen, List.sum_cons]
          have h1 : t ≤ max t (listMax (u :: ts')) := le_max_left _ _
          have h2 : (((u :: ts').length : Nat) : Rat) * listMax (u :: ts') ≤
              (((u :: ts').length : Nat) : Rat) * max t (listMax (u :: ts')) := by
            apply mul_le_mul_of_nonneg_left (le_max_right _ _)
            positivity
          have h3 := ih (by simp)
          calc t + (u :: ts').sum
              ≤ max t (listMax (u :: ts')) +
                (((u :: ts').length : Nat) : Rat) * listMax (u :: ts') :=
                add_le_add h1 h3
            _ ≤ max t (listMax (u :: ts')) +
                (((u :: ts').length : Nat) : Rat) * max t (listMax (u :: ts')) :=
                add_le_add_left h2 _
            _ = ((((u :: ts').length : Nat) : Rat) + 1) * max t (listMax (u :: ts')) := by
                ring

theorem length_cast_pos (l : List Rat) (h : l ≠ []) : (0 : Rat) < (l.length : Rat) := by
  have : 0 < l.length := List.length_pos.mpr h
  exact_mod_cast this

theorem listMin_le_mean (l : List Rat) (h : l ≠ []) :
    listMin l ≤ l.sum / (l.length : Rat) := by
  rw [le_div_iff₀ (length_cast_pos l h)]
  calc listMin l * (l.length : Rat) = (l.length : Rat) * listMin l := by ring
    _ ≤ l.sum := length_mul_listMin_le_sum l h

theorem mean_le_listMax (l : List Rat) (h : l ≠ []) :
    l.sum / (l.length : Rat) ≤ listMax l := by
  rw [div_le_iff₀ (length_cast_pos l h)]
  calc l.sum ≤ (l.length : Rat) * listMax l := sum_le_length_mul_listMax l h
    _ = listMax l * (l.length : Rat) := by ring

theorem listMin_perm (l1 l2 : List Rat) (h : l1.Perm l2) :
    listMin l1 = listMin l2 := by
  by_cases h1 : l1 = []
  · have h2 : l2 = [] := by
      rw [← List.length_eq_zero, ← h.length_eq, h1]
      rfl
    rw [h1, h2]
  · have h2 : l2 ≠ [] := by
      intro hc
      apply h1
      rw [← List.length_eq_zero, h.length_eq, hc]
      rfl
    apply le_antisymm
    · exact listMin_le l1 _ (h.mem_iff.mpr (listMin_mem l2 h2))
    · exact listMin_le l2 _ (h.mem_iff.mp (listMin_mem l1 h1))

theorem listMax_perm (l1 l2 : List Rat) (h : l1.Perm l2) :
    listMax l1 = listMax l2 := by
  by_cases h1 : l1 = []
  · have h2 : l2 = [] := by
      rw [← List.length_eq_zero, ← h.length_eq, h1]
      rfl
    rw [h1, h2]
  · have h2 : l2 ≠ [] := by
      intro hc
      apply h1
      rw [← List.length_eq_zero, h.length_eq, hc]
      rfl
    apply le_antisymm
    · exact le_listMax l2 _ (h.mem_iff.mp (listMax_mem l1 h1))
    · exact le_listMax l1 _ (h.mem_iff.mpr (listMax_mem l2 h2))

theorem mkSummary_perm (k : BenchKey) (ts1 ts2 : List Rat) (np fs : Int)
    (h : ts1.Perm ts2) : mkSummary k ts1 np fs = mkSummary k ts2 np fs := by
  unfold mkSummary
  rw [h.length_eq, h.sum_eq, listMin_perm _ _ h, listMax_perm _ _ h]

theorem summaryKey_mkSummary (k : BenchKey) (ts : List Rat) (np fs : Int) :
    summaryKey (mkSummary k ts np fs) = k := rfl

-- ── C1 ───────────────────────────────────────────────────────────────────────

/-- C1: for every non-empty list of raw samples, `aggregate` groups them by the
exact (tool, operation, threads) triple, and each resulting summary has `n`
equal to the exact count of samples in its group, `mean_s` equal to their
arithmetic mean, `min_s` and `max_s` equal to the smallest and largest
`time_s` of the group, and consequently `min_s ≤ mean_s ≤ max_s`. -/
theorem aggregate_group_stats (raw : List BenchResult) (np fs : Int)
    (_hraw : raw ≠ []) (s : BenchSummary) (hs : s ∈ aggregate raw np fs) :
    s.n = (groupTimes raw (summaryKey s)).length ∧
    s.mean_s = (groupTimes raw (summaryKey s)).sum /
      ((groupTimes raw (summaryKey s)).length : Rat) ∧
    s.min_s ∈ groupTimes raw (summaryKey s) ∧
    (∀ t ∈ groupTimes raw (summaryKey s), s.min_s ≤ t) ∧
    s.max_s ∈ groupTimes raw (summaryKey s) ∧
    (∀ t ∈ groupTimes raw (summaryKey s), t ≤ s.max_s) ∧
    s.min_s ≤ s.mean_s ∧ s.mean_s ≤ s.max_s := by
  obtain ⟨k, hne, rfl⟩ := (mem_aggregate_iff raw np fs s).mp hs
  rw [summaryKey_mkSummary]
  refine ⟨rfl, rfl, ?_, ?_, ?_, ?_, ?_, ?_⟩
  · exact listMin_mem _ hne
  · exact listMin_le _
  · exact listMax_mem _ hne
  · exact le_listMax _
  · exact listMin_le_mean _ hne
  · exact mean_le_listMax _ hne

/-- Concrete raw samples used by the witnesses. -/
def sampleA : BenchResult := ⟨"laspp", "read", 1, 0, 2⟩

/-- Second concrete raw sample for the same key. -/
def sampleB : BenchResult := ⟨"laspp", "read", 1, 1, 4⟩

/-- The summary `aggregate` produces for `[sampleA, sampleB]`. -/
def summaryW : BenchSummary := ⟨"laspp", "read", 1, 2, 3, 2, 4, 0, 0⟩

/-- Evaluation of `aggregate` on the concrete two-sample input. -/
theorem aggregate_pair_eval : aggregate [sampleA, sampleB] 0 0 = [summaryW] := by
  simp only [aggregate, groupSamples, List.foldl_cons, List.foldl_nil,
    insertSample, keyOf, sampleA, sampleB, List.map_cons, List.map_nil,
    mkSummary, summaryW]
  norm_num [listMin, listMax, BenchSummary.mk.injEq]

/-- Witness for C1 at the two-sample input `[sampleA, sampleB]`. -/
theorem aggregate_group_stats_witness :
    [sampleA, sampleB] ≠ [] ∧ summaryW ∈ aggregate [sampleA, sampleB] 0 0 ∧
    (summaryW.n = (groupTimes [sampleA, sampleB] (summaryKey summaryW)).length ∧
    summaryW.mean_s = (groupTimes [sampleA, sampleB] (summaryKey summaryW)).sum /
      ((groupTimes [sampleA, sampleB] (summaryKey summaryW)).length : Rat) ∧
    summaryW.min_s ∈ groupTimes [sampleA, sampleB] (summaryKey summaryW) ∧
    (∀ t ∈ groupTimes [sampleA, sampleB] (summaryKey summaryW),
      summaryW.min_s ≤ t) ∧
    summaryW.max_s ∈ groupTimes [sampleA, sampleB] (summaryKey summaryW) ∧
    (∀ t ∈ groupTimes [sampleA, sampleB] (summaryKey summaryW),
      t ≤ summaryW.max_s) ∧
    summaryW.min_s ≤ summaryW.mean_s ∧ summaryW.mean_s ≤ summaryW.max_s) :=
  ⟨by decide, by rw [aggregate_pair_eval]; exact List.mem_singleton_self _,
    aggregate_group_stats [sampleA, sampleB] 0 0 (by decide) summaryW
      (by rw [aggregate_pair_eval]; exact List.mem_singleton_self _)⟩

-- ── C3 ───────────────────────────────────────────────────────────────────────

/-- C3: aggregation is order-independent: for every list of raw samples and
every permutation of it, `aggregate` on the permuted list produces the same
set of summaries as `aggregate` on the original list. -/
theorem aggregate_perm (raw1 raw2 : List BenchResult) (np fs : Int)
    (hperm : raw1.Perm raw2) (s : BenchSummary) :
    s ∈ aggregate raw1 np fs ↔ s ∈ aggregate raw2 np fs := by
  rw [mem_aggregate_iff, mem_aggregate_iff]
  constructor
  · rintro ⟨k, hne, rfl⟩
    have hp : (groupTimes raw1 k).Perm (groupTimes raw2 k) :=
      List.Perm.map _ (List.Perm.filter _ hperm)
    refine ⟨k, ?_, ?_⟩
    · intro hc
      apply hne
      rw [← List.length_eq_zero, hp.length_eq, hc]
      rfl
    · exact mkSummary_perm k _ _ np fs hp
  · rintro ⟨k, hne, rfl⟩
    have hp : (groupTimes raw2 k).Perm (groupTimes raw1 k) :=
      List.Perm.map _ (List.Perm.filter _ hperm.symm)
    refine ⟨k, ?_, ?_⟩
    · intro hc
      apply hne
      rw [← List.length_eq_zero, hp.length_eq, hc]
      rfl
    · exact mkSummary_perm k _ _ np fs hp

/-- Witness for C3: swapping the two samples leaves the summary membership
unchanged. -/
theorem aggregate_perm_witness :
    ([sampleA, sampleB] : List BenchResult).Perm [sampleB, sampleA] ∧
    (summaryW ∈ aggregate [sampleA, sampleB] 0 0 ↔
      summaryW ∈ aggregate [sampleB, sampleA] 0 0) :=
  ⟨List.Perm.swap _ _ _,
    aggregate_perm [sampleA, sampleB] [sampleB, sampleA] 0 0
      (List.Perm.swap _ _ _) summaryW⟩

-- ── C9 ───────────────────────────────────────────────────────────────────────

theorem aggregate_keys_map (raw : List BenchResult) (np fs : Int) :
    (aggregate raw np fs).map summaryKey = (groupSamples raw).map Prod.fst := by
  unfold aggregate
  rw [List.map_map]
  rfl

/-- C9: the (tool, operation, threads) keys of the summaries returned by
`aggregate` are pairwise distinct: no key appears in more than one summary. -/
theorem aggregate_keys_nodup (raw : List BenchResult) (np fs : Int) :
    ((aggregate raw np fs).map summaryKey).Nodup := by
  rw [aggregate_keys_map]
  exact nodup_keys_groupSamples raw

-- ── C10 ──────────────────────────────────────────────────────────────────────

theorem sum_lengths_insertSample (g : List (BenchKey × List Rat)) (k : BenchKey)
    (t : Rat) :
    ((insertSample g k t).map (fun p => p.2.length)).sum =
      (g.map (fun p => p.2.length)).sum + 1 := by
  induction g with
  | nil => simp [insertSample]
  | cons hd tl ih =>
      obtain ⟨k0, ts0⟩ := hd
      by_cases h0 : k0 = k
      · subst h0
        simp [insertSample]
        omega
      · simp [insertSample, h0, ih]
        omega

theorem sum_lengths_foldl (raw : List BenchResult) :
    ∀ (g : List (BenchKey × List Rat)),
      ((raw.foldl (fun g r => insertSample g (keyOf r) r.time_s) g).map
        (fun p => p.2.length)).sum =
      (g.map (fun p => p.2.length)).sum + raw.length := by
  induction raw with
  | nil => intro g; simp
  | cons r rest ih =>
      intro g
      simp only [List.foldl_cons]
      rw [ih, sum_lengths_insertSample]
      simp only [List.length_cons]
      omega

/-- C10: aggregation conserves samples: the sum of the `n` fields over all
summaries returned by `aggregate` equals the length of the input list. -/
theorem aggregate_conserves_samples (raw : List BenchResult) (np fs : Int) :
    ((aggregate raw np fs).map BenchSummary.n).sum = raw.length := by
  unfold aggregate
  rw [List.map_map]
  have hfun : (BenchSummary.n ∘ fun e : BenchKey × List Rat =>
      mkSummary e.1 e.2 np fs) = fun p : BenchKey × List Rat => p.2.length := rfl
  rw [hfun]
  have h := sum_lengths_foldl raw []
  simpa [groupSamples] using h

-- ── C4 ───────────────────────────────────────────────────────────────────────

/-- C4: the derived throughput fields equal `num_points / mean_s` and
`(file_size_bytes/1e6) / mean_s` when `mean_s > 0`, and equal `0` whenever
`mean_s ≤ 0` or the corresponding numerator is `0`; in this model both are
total functions, reflecting that the guard prevents any division error. -/
theorem throughput_guarded (s : BenchSummary) :
    (0 < s.mean_s → pts_per_s s = (s.num_points : Rat) / s.mean_s) ∧
    (s.mean_s ≤ 0 → pts_per_s s = 0) ∧
    (s.num_points = 0 → pts_per_s s = 0) ∧
    (0 < s.mean_s → mb_per_s s = ((s.file_size_bytes : Rat) / 1000000) / s.mean_s) ∧
    (s.mean_s ≤ 0 → mb_per_s s = 0) ∧
    (s.file_size_bytes = 0 → mb_per_s s = 0) := by
  refine ⟨?_, ?_, ?_, ?_, ?_, ?_⟩ <;> intro h
  · simp [pts_per_s, h]
  · simp [pts_per_s, not_lt.mpr h]
  · simp [pts_per_s, h]
  · simp [mb_per_s, h]
  · simp [mb_per_s, not_lt.mpr h]
  · simp [mb_per_s, h]

/-- Summary with positive mean and non-zero numerators. -/
def summaryP : BenchSummary := ⟨"laspp", "read", 1, 1, 2, 2, 2, 6, 4000000⟩

/-- Summary with a non-positive mean. -/
def summaryZ : BenchSummary := ⟨"laspp", "read", 1, 1, -1, 0, 0, 6, 4000000⟩

/-- Summary with zero numerators. -/
def summaryN : BenchSummary := ⟨"laspp", "read", 1, 1, 5, 5, 5, 0, 0⟩

/-- Witness for C4 at three concrete summaries covering all three guard
cases. -/
theorem throughput_guarded_witness :
    pts_per_s summaryP = (summaryP.num_points : Rat) / summaryP.mean_s ∧
    pts_per_s summaryZ = 0 ∧
    pts_per_s summaryN = 0 ∧
    mb_per_s summaryP = ((summaryP.file_size_bytes : Rat) / 1000000) /
      summaryP.mean_s ∧
    mb_per_s summaryZ = 0 ∧
    mb_per_s summaryN = 0 :=
  ⟨(throughput_guarded summaryP).1 (show (0 : Rat) < 2 by norm_num),
   (throughput_guarded summaryZ).2.1 (show (-1 : Rat) ≤ 0 by norm_num),
   (throughput_guarded summaryN).2.2.1 rfl,
   (throughput_guarded summaryP).2.2.2.1 (show (0 : Rat) < 2 by norm_num),
   (throughput_guarded summaryZ).2.2.2.2.1 (show (-1 : Rat) ≤ 0 by norm_num),
   (throughput_guarded summaryN).2.2.2.2.2 rfl⟩

-- ── Subprocess driver protocol (benchmark_laspy_read) ────────────────────────

/-- Value of a decimal digit character, `none` otherwise. -/
def digitVal (c : Char) : Option Nat :=
  if '0' ≤ c ∧ c ≤ '9' then some (c.toNat - ('0').toNat) else none

/-- Decimal digit-string parser. -/
def parseNatChars (cs : List Char) : Option Nat :=
  match cs with
  | [] => none
  | _ => cs.foldl (fun acc c =>
      match acc, digitVal c with
      | some n, some d => some (n * 10 + d)
      | _, _ => none) (some 0)

/-- Model of Python `int(s)` as called on `it_str` (core grammar: optional
minus sign and decimal digits; the surrounding-whitespace and underscore
liberality of `int()` is not relevant to any line the child emits). -/
def parseIntChars (cs : List Char) : Option Int :=
  match cs with
  | '-' :: rest => (parseNatChars rest).map (fun n => -(n : Int))
  | _ => (parseNatChars cs).map (fun n => (n : Int))

/-- Model of Python `line.split(',')` on a line viewed as a char sequence. -/
def splitOnComma : List Char → List (List Char)
  | [] => [[]]
  | c :: rest =>
      if c = ',' then [] :: splitOnComma rest
      else
        match splitOnComma rest with
        | [] => [[c]]
        | p :: ps => (c :: p) :: ps

/-- Parse one line of the child's standard output, as in the parent loop of
`benchmark_laspy_read`:
`if ',' in line: it_str, time_str = line.split(','); results.append(...)`.
A line without a comma is skipped (`Except.ok none`); a comma-bearing line
that does not split into exactly two fragments, or whose fragments `int()` or
`float()` reject, raises `ValueError` (`Except.error`).  `parseTime`
abstracts Python `float(time_str)`. -/
def parseChildLine (parseTime : List Char → Option Rat) (backendName : String)
    (numThreads : Int) (line : List Char) : Except String (Option BenchResult) :=
  if ',' ∈ line then
    match splitOnComma line with
    | [itStr, timeStr] =>
        match parseIntChars itStr, parseTime timeStr with
        | some it, some t =>
            Except.ok (some ⟨backendName, "read", numThreads, it, t⟩)
        | _, _ => Except.error "invalid literal"
    | _ => Except.error "too many values to unpack"
  else Except.ok none

/-- The parent's parsing loop over the lines of the child's stdout; an error
on any line aborts the whole call with no samples. -/
def parseChildOutput (parseTime : List Char → Option Rat) (backendName : String)
    (numThreads : Int) : List (List Char) → Except String (List BenchResult)
  | [] => Except.ok []
  | line :: rest =>
      match parseChildLine parseTime backendName numThreads line with
      | Except.error e => Except.error e
      | Except.ok none => parseChildOutput parseTime backendName numThreads rest
      | Except.ok (some r) =>
          match parseChildOutput parseTime backendName numThreads rest with
          | Except.error e => Except.error e
          | Except.ok rs => Except.ok (r :: rs)

/-- Result of `subprocess.run([sys.executable, "-c", script], ...)`: exit
code, stdout already split into lines, and the diagnostic stream. -/
structure ChildRun where
  exitCode : Int
  stdoutLines : List (List Char)
  stderrTxt : String

/-- The subprocess-isolated branch of `benchmark_laspy_read`: a non-zero
child exit raises `RuntimeError` with stderr attached; otherwise the stdout
lines are parsed into samples. -/
def laspyReadSubprocess (parseTime : List Char → Option Rat) (child : ChildRun)
    (backendName : String) (numThreads : Int) :
    Except String (List BenchResult) :=
  if child.exitCode ≠ 0 then
    Except.error ("laspy subprocess failed: " ++ child.stderrTxt)
  else
    parseChildOutput parseTime backendName numThreads child.stdoutLines

/-- Stdout of the child script's timed loop for a deterministic non-failing
workload: one line `f"{it},{elapsed}"` per `it in range(iterations)`.
`encNat` and `encTime` abstract Python `str` on the iteration index and the
elapsed float. -/
def childStdoutLines (encNat : Nat → List Char) (encTime : Rat → List Char)
    (times : Nat → Rat) (iterations : Nat) : List (List Char) :=
  (List.range iterations).map (fun it => encNat it ++ ',' :: encTime (times it))

/-- Warmup loop `for _ in range(warmup): fn()`; `calls k` is the outcome of
the k-th invocation of the workload, starting at index `start`. -/
def runWarmup (calls : Nat → Except String Rat) : Nat → Nat → Except String Unit
  | _, 0 => Except.ok ()
  | start, Nat.succ w =>
      match calls start with
      | Except.error e => Except.error e
      | Except.ok _ => runWarmup calls (start + 1) w

/-- Timed loop `for it in range(iterations): t = timed(fn); results.append(...)`,
with `calls` indexed from `callStart` and the iteration list made explicit. -/
def runTimedList (calls : Nat → Except String Rat) (mk : Nat → Rat → BenchResult)
    (callStart : Nat) : List Nat → Except String (List BenchResult)
  | [] => Except.ok []
  | it :: rest =>
      match calls (callStart + it) with
      | Except.error e => Except.error e
      | Except.ok t =>
          match runTimedList calls mk callStart rest with
          | Except.error e => Except.error e
          | Except.ok rs => Except.ok (mk it t :: rs)

/-- The in-process branch of `benchmark_laspy_read` (non-parallel backends or
no requested thread count): warmup then timed iterations, with
`threads = num_threads or 0`. -/
def laspyReadInProcess (calls : Nat → Except String Rat) (backendName : String)
    (numThreads : Option Int) (warmup iterations : Nat) :
    Except String (List BenchResult) :=
  match runWarmup calls 0 warmup with
  | Except.error e => Except.error e
  | Except.ok _ =>
      runTimedList calls
        (fun it t => ⟨backendName, "read", numThreads.getD 0, (it : Int), t⟩)
        warmup (List.range iterations)

-- ── Protocol lemmas ──────────────────────────────────────────────────────────

theorem splitOnComma_no_comma (cs : List Char) (h : (',') ∉ cs) :
    splitOnComma cs = [cs] := by
  induction cs with
  | nil => rfl
  | cons c rest ih =>
      have hc : ¬ c = ',' := by
        intro hc
        exact h (by rw [hc]; exact List.mem_cons_self _ _)
      have hrest : (',') ∉ rest := fun hm => h (List.mem_cons_of_mem _ hm)
      simp only [splitOnComma, if_neg hc, ih hrest]

theorem splitOnComma_cons_ne (c : Char) (rest : List Char) (hc : ¬ c = ',')
    (p : List Char) (ps : List (List Char)) (h : splitOnComma rest = p :: ps) :
    splitOnComma (c :: rest) = (c :: p) :: ps := by
  simp only [splitOnComma, if_neg hc, h]

theorem splitOnComma_pair (a b : List Char) (ha : (',') ∉ a) (hb : (',') ∉ b) :
    splitOnComma (a ++ ',' :: b) = [a, b] := by
  induction a with
  | nil =>
      rw [List.nil_append]
      simp [splitOnComma, splitOnComma_no_comma b hb]
  | cons c a' ih =>
      have hc : ¬ c = ',' := by
        intro hc
        exact ha (by rw [hc]; exact List.mem_cons_self _ _)
      have ha' : (',') ∉ a' := fun hm => ha (List.mem_cons_of_mem _ hm)
      rw [List.cons_append]
      exact splitOnComma_cons_ne c _ hc a' [b] (ih ha')

theorem parseChildLine_skip (parseTime : List Char → Option Rat)
    (backendName : String) (numThreads : Int) (line : List Char)
    (h : (',') ∉ line) :
    parseChildLine parseTime backendName numThreads line = Except.ok none := by
  simp [parseChildLine, h]

theorem parseChildLine_wellFormed (parseTime : List Char → Option Rat)
    (backendName : String) (numThreads : Int) (itStr timeStr : List Char)
    (it : Int) (t : Rat) (hi : parseIntChars itStr = some it)
    (ht : parseTime timeStr = some t) (hia : (',') ∉ itStr)
    (hta : (',') ∉ timeStr) :
    parseChildLine parseTime backendName numThreads (itStr ++ ',' :: timeStr) =
      Except.ok (some ⟨backendName, "read", numThreads, it, t⟩) := by
  have hmem : (',') ∈ itStr ++ ',' :: timeStr :=
    List.mem_append_right _ (List.mem_cons_self _ _)
  simp only [parseChildLine, if_pos hmem, splitOnComma_pair itStr timeStr hia hta,
    hi, ht]

theorem parseChildOutput_wellFormed (parseTime : List Char → Option Rat)
    (backendName : String) (numThreads : Int) (encNat : Nat → List Char)
    (encTime : Rat → List Char) (times : Nat → Rat) :
    ∀ L : List Nat,
      (∀ it ∈ L, parseIntChars (encNat it) = some (it : Int) ∧
        (',') ∉ encNat it ∧
        parseTime (encTime (times it)) = some (times it) ∧
        (',') ∉ encTime (times it)) →
      parseChildOutput parseTime backendName numThreads
        (L.map (fun it => encNat it ++ ',' :: encTime (times it))) =
      Except.ok (L.map (fun it =>
        ⟨backendName, "read", numThreads, (it : Int), times it⟩)) := by
  intro L
  induction L with
  | nil => intro _; rfl
  | cons it rest ih =>
      intro h
      obtain ⟨h1, h2, h3, h4⟩ := h it (List.mem_cons_self _ _)
      have hrest := fun x hx => h x (List.mem_cons_of_mem _ hx)
      simp only [List.map_cons, parseChildOutput,
        parseChildLine_wellFormed parseTime backendName numThreads _ _ _ _ h1 h3 h2 h4,
        ih hrest]

theorem parseChildOutput_skips_commaless (parseTime : List Char → Option Rat)
    (backendName : String) (numThreads : Int) (bad : List Char)
    (hbad : (',') ∉ bad) :
    ∀ pre post : List (List Char),
      parseChildOutput parseTime backendName numThreads (pre ++ bad :: post) =
        parseChildOutput parseTime backendName numThreads (pre ++ post) := by
  intro pre
  induction pre with
  | nil =>
      intro post
      simp only [List.nil_append, parseChildOutput,
        parseChildLine_skip parseTime backendName numThreads bad hbad]
  | cons l pre' ih =>
      intro post
      have hstep : ∀ rest,
          parseChildOutput parseTime backendName numThreads (l :: rest) =
            match parseChildLine parseTime backendName numThreads l with
            | Except.error e => Except.error e
            | Except.ok none =>
                parseChildOutput parseTime backendName numThreads rest
            | Except.ok (some r) =>
                match parseChildOutput parseTime backendName numThreads rest with
                | Except.error e => Except.error e
                | Except.ok rs => Except.ok (r :: rs) := fun rest => rfl
      rw [List.cons_append, List.cons_append, hstep, hstep, ih post]

theorem runWarmup_ok (calls : Nat → Except String Rat) (tf : Nat → Rat)
    (h : ∀ k, calls k = Except.ok (tf k)) :
    ∀ (w start : Nat), runWarmup calls start w = Except.ok () := by
  intro w
  induction w with
  | zero => intro start; rfl
  | succ w' ih =>
      intro start
      simp only [runWarmup, h start, ih (start + 1)]

theorem runTimedList_ok (calls : Nat → Except String Rat) (tf : Nat → Rat)
    (mk : Nat → Rat → BenchResult) (h : ∀ k, calls k = Except.ok (tf k)) :
    ∀ (L : List Nat) (cs : Nat),
      runTimedList calls mk cs L =
        Except.ok (L.map (fun it => mk it (tf (cs + it)))) := by
  intro L
  induction L with
  | nil => intro cs; rfl
  | cons it rest ih =>
      intro cs
      simp only [runTimedList, h (cs + it), ih cs, List.map_cons]

-- ── C2 ───────────────────────────────────────────────────────────────────────

/-- C2 (amended): with a deterministic non-failing workload, the
subprocess-isolated laspy read driver returns exactly `N` samples whose
iteration indices are `0, 1, ..., N-1` in that exact order; a non-zero child
exit code is a driver failure, and a comma-bearing output line whose
fragments do not parse is a driver failure; however a malformed line
*without* a comma is silently skipped (shortening the result) rather than
being a driver failure.  The in-process branch likewise returns exactly `N`
samples with iteration indices `0..N-1`. -/
theorem laspy_read_protocol
    (parseTime : List Char → Option Rat) (encNat : Nat → List Char)
    (encTime : Rat → List Char) (times : Nat → Rat) (N : Nat)
    (backendName : String) (numThreads : Int) (errTxt : String)
    (calls : Nat → Except String Rat) (tf : Nat → Rat) (warmup : Nat)
    (numThreadsOpt : Option Int)
    (henc : ∀ it ∈ List.range N,
      parseIntChars (encNat it) = some (it : Int) ∧ (',') ∉ encNat it ∧
      parseTime (encTime (times it)) = some (times it) ∧
      (',') ∉ encTime (times it))
    (hcalls : ∀ k, calls k = Except.ok (tf k)) :
    (laspyReadSubprocess parseTime
        ⟨0, childStdoutLines encNat encTime times N, errTxt⟩
        backendName numThreads =
      Except.ok ((List.range N).map (fun it =>
        ⟨backendName, "read", numThreads, (it : Int), times it⟩)) ∧
      ((List.range N).map (fun it : Nat =>
        (⟨backendName, "read", numThreads, (it : Int), times it⟩ :
          BenchResult))).map BenchResult.iteration =
        (List.range N).map (fun it : Nat => (it : Int)) ∧
      ((List.range N).map (fun it : Nat =>
        (⟨backendName, "read", numThreads, (it : Int), times it⟩ :
          BenchResult))).length = N) ∧
    (∀ child : ChildRun, child.exitCode ≠ 0 →
      laspyReadSubprocess parseTime child backendName numThreads =
        Except.error ("laspy subprocess failed: " ++ child.stderrTxt)) ∧
    (∀ itStr timeStr : List Char, (',') ∉ itStr → (',') ∉ timeStr →
      parseIntChars itStr = none ∨ parseTime timeStr = none →
      ∃ e, parseChildLine parseTime backendName numThreads
        (itStr ++ ',' :: timeStr) = Except.error e) ∧
    (∀ pre post bad, (',') ∉ bad →
      parseChildOutput parseTime backendName numThreads (pre ++ bad :: post) =
        parseChildOutput parseTime backendName numThreads (pre ++ post)) ∧
    (laspyReadInProcess calls backendName numThreadsOpt warmup N =
      Except.ok ((List.range N).map (fun it =>
        ⟨backendName, "read", numThreadsOpt.getD 0, (it : Int),
          tf (warmup + it)⟩)) ∧
      ((List.range N).map (fun it : Nat =>
        (⟨backendName, "read", numThreadsOpt.getD 0, (it : Int),
          tf (warmup + it)⟩ : BenchResult))).map BenchResult.iteration =
        (List.range N).map (fun it : Nat => (it : Int))) := by
  refine ⟨⟨?_, ?_, ?_⟩, ?_, ?_, ?_, ⟨?_, ?_⟩⟩
  · show (if (0 : Int) ≠ 0 then _ else _) = _
    rw [if_neg (by simp)]
    exact parseChildOutput_wellFormed parseTime backendName numThreads
      encNat encTime times (List.range N) henc
  · rw [List.map_map]
    rfl
  · rw [List.length_map, List.length_range]
  · intro child hne
    simp [laspyReadSubprocess, hne]
  · intro itStr timeStr hia hta hbad
    refine ⟨"invalid literal", ?_⟩
    have hmem : (',') ∈ itStr ++ ',' :: timeStr :=
      List.mem_append_right _ (List.mem_cons_self _ _)
    rcases hbad with hbad | hbad
    · simp only [parseChildLine, if_pos hmem,
        splitOnComma_pair itStr timeStr hia hta, hbad]
    · simp only [parseChildLine, if_pos hmem,
        splitOnComma_pair itStr timeStr hia hta, hbad]
      cases hi : parseIntChars itStr <;> rfl
  · intro pre post bad hbad
    exact parseChildOutput_skips_commaless parseTime backendName numThreads
      bad hbad pre post
  · simp only [laspyReadInProcess, runWarmup_ok calls tf hcalls warmup 0,
      runTimedList_ok calls tf _ hcalls (List.range N) warmup]
  · rw [List.map_map]
    rfl

/-- Concrete model of Python `float()` agreeing with it on unsigned integer
literals, used by the concrete C2 instances. -/
def parseTimeNat (cs : List Char) : Option Rat :=
  (parseNatChars cs).map (fun n => (n : Rat))

/-- C2 counterexample: a child exiting 0 whose stdout contains the
well-formed line `"0,5"` followed by the malformed comma-less line `"oops"`
makes the driver return `ok` with a single sample — the malformed line is
silently dropped (the requested second iteration is missing) instead of
raising a driver failure as the claim states. -/
theorem laspy_subprocess_malformed_not_failure :
    laspyReadSubprocess parseTimeNat
      ⟨0, [['0', ',', '5'], ['o', 'o', 'p', 's']], ""⟩
      "laspy (lazrs-parallel)" 4 =
      Except.ok [⟨"laspy (lazrs-parallel)", "read", 4, 0, 5⟩] := by
  rfl

/-- Concrete iteration-index encoder for the C2 witness. -/
def encNatW : Nat → List Char := fun n => if n = 0 then ['0'] else ['1']

/-- Concrete elapsed-time encoder for the C2 witness. -/
def encTimeW : Rat → List Char := fun t => if t = 1 then ['1'] else ['2']

/-- Concrete per-iteration times for the C2 witness. -/
def timesW : Nat → Rat := fun it => ((it + 1 : Nat) : Rat)

/-- Concrete non-failing workload outcomes for the C2 witness. -/
def callsW : Nat → Except String Rat := fun k => Except.ok ((k : Rat))

/-- Concrete elapsed times of `callsW`. -/
def tfW : Nat → Rat := fun k => ((k : Nat) : Rat)

/-- Witness for C2 at `N = 2`, warmup 1, thread count 4. -/
theorem laspy_read_protocol_witness :
    (∀ it ∈ List.range 2,
      parseIntChars (encNatW it) = some (it : Int) ∧ (',') ∉ encNatW it ∧
      parseTimeNat (encTimeW (timesW it)) = some (timesW it) ∧
      (',') ∉ encTimeW (timesW it)) ∧
    (∀ k, callsW k = Except.ok (tfW k)) ∧
    ((laspyReadSubprocess parseTimeNat
        ⟨0, childStdoutLines encNatW encTimeW timesW 2, ""⟩
        "laspy (lazrs-parallel)" 4 =
      Except.ok ((List.range 2).map (fun it =>
        ⟨"laspy (lazrs-parallel)", "read", 4, (it : Int), timesW it⟩)) ∧
      ((List.range 2).map (fun it : Nat =>
        (⟨"laspy (lazrs-parallel)", "read", 4, (it : Int), timesW it⟩ :
          BenchResult))).map BenchResult.iteration =
        (List.range 2).map (fun it : Nat => (it : Int)) ∧
      ((List.range 2).map (fun it : Nat =>
        (⟨"laspy (lazrs-parallel)", "read", 4, (it : Int), timesW it⟩ :
          BenchResult))).length = 2) ∧
    (∀ child : ChildRun, child.exitCode ≠ 0 →
      laspyReadSubprocess parseTimeNat child "laspy (lazrs-parallel)" 4 =
        Except.error ("laspy subprocess failed: " ++ child.stderrTxt)) ∧
    (∀ itStr timeStr : List Char, (',') ∉ itStr → (',') ∉ timeStr →
      parseIntChars itStr = none ∨ parseTimeNat timeStr = none →
      ∃ e, parseChildLine parseTimeNat "laspy (lazrs-parallel)" 4
        (itStr ++ ',' :: timeStr) = Except.error e) ∧
    (∀ pre post bad, (',') ∉ bad →
      parseChildOutput parseTimeNat "laspy (lazrs-parallel)" 4
        (pre ++ bad :: post) =
      parseChildOutput parseTimeNat "laspy (lazrs-parallel)" 4
        (pre ++ post)) ∧
    (laspyReadInProcess callsW "laspy (lazrs-parallel)" (some 4) 1 2 =
      Except.ok ((List.range 2).map (fun it =>
        ⟨"laspy (lazrs-parallel)", "read", (some (4 : Int)).getD 0, (it : Int),
          tfW (1 + it)⟩)) ∧
      ((List.range 2).map (fun it : Nat =>
        (⟨"laspy (lazrs-parallel)", "read", (some (4 : Int)).getD 0, (it : Int),
          tfW (1 + it)⟩ : BenchResult))).map BenchResult.iteration =
        (List.range 2).map (fun it : Nat => (it : Int)))) :=
  ⟨by decide, fun k => rfl,
    laspy_read_protocol parseTimeNat encNatW encTimeW timesW 2
      "laspy (lazrs-parallel)" 4 "" callsW tfW 1 (some 4)
      (by decide) (fun k => rfl)⟩

-- ── Orchestrator (main), modelled for `--operation read` with the default
-- tool set ─────────────────────────────────────────────────────────────────

/-- Outcomes of the individual driver calls `main` dispatches, one field per
benchmark section in source order: the single C++ benchmark invocation
(covering laspp and laszip; `none` models "binary not found"), the laspy
lazrs-parallel backend (one call per requested thread count), the laspy
laszip backend (likewise, invoked only at thread count 1), the direct lazrs
call, and the PDAL call.  The `Avail` flags model backend/tool
availability. -/
structure DriverSet where
  cppRun : Option (Except String (List BenchResult))
  laspyParAvail : Bool
  laspyParRun : Int → Except String (List BenchResult)
  laspyLaszipAvail : Bool
  laspyLaszipRun : Int → Except String (List BenchResult)
  lazrsAvail : Bool
  lazrsRun : Except String (List BenchResult)
  pdalAvail : Bool
  pdalRun : Except String (List BenchResult)

/-- The `for n_threads in laspy_thread_counts` loop inside the per-backend
`try:` of `main`: results of earlier thread counts are kept (already
extended into `all_results`), and the first failing thread count aborts the
rest of the loop, surfacing its error. -/
def runLaspyBackendCells (bench : Int → Except String (List BenchResult)) :
    List Int → List BenchResult × Option String
  | [] => ([], none)
  | n :: rest =>
      match bench n with
      | Except.error e => ([], some e)
      | Except.ok rs =>
          let p := runLaspyBackendCells bench rest
          (rs ++ p.1, p.2)

/-- One laspy backend section of `main`: the whole thread-count loop sits in
one `try/except` whose handler prints a warning naming the backend label. -/
def runLaspySection (avail : Bool) (bench : Int → Except String (List BenchResult))
    (label : String) (counts : List Int) : List BenchResult × List String :=
  if avail then
    match runLaspyBackendCells bench counts with
    | (rs, none) => (rs, [])
    | (rs, some e) => (rs, ["WARNING: " ++ label ++ " benchmark failed: " ++ e])
  else ([], [])

/-- A single-invocation tool section of `main` (lazrs, PDAL): one `try:`
around one driver call. -/
def runSimpleSection (avail : Bool) (run : Except String (List BenchResult))
    (label : String) : List BenchResult × List String :=
  if avail then
    match run with
    | Except.ok rs => (rs, [])
    | Except.error e =>
        ([], ["WARNING: " ++ label ++ " benchmark failed: " ++ e])
  else ([], [])

/-- The C++ benchmark section of `main`: binary not found is a warned skip;
a raising invocation is caught and warned. -/
def runCppSection (cppRun : Option (Except String (List BenchResult))) :
    List BenchResult × List String :=
  match cppRun with
  | none => ([], ["WARNING: C++ benchmark binary not found."])
  | some (Except.error e) => ([], ["WARNING: C++ benchmark failed: " ++ e])
  | some (Except.ok rs) => (rs, [])

/-- The collection phase of `main` for `--operation read`: the five sections
run in source order, each behind its own error boundary, accumulating
`all_results` and the warnings printed to stderr. -/
def mainCollect (d : DriverSet) (threadCounts : List Int) :
    List BenchResult × List String :=
  let cpp := runCppSection d.cppRun
  let par := runLaspySection d.laspyParAvail d.laspyParRun
    "laspy (lazrs-parallel)" threadCounts
  let lz := runLaspySection d.laspyLaszipAvail d.laspyLaszipRun
    "laspy (laszip)" [1]
  let lr := runSimpleSection d.lazrsAvail d.lazrsRun "lazrs"
  let pd := runSimpleSection d.pdalAvail d.pdalRun "PDAL"
  (cpp.1 ++ par.1 ++ lz.1 ++ lr.1 ++ pd.1,
   cpp.2 ++ par.2 ++ lz.2 ++ lr.2 ++ pd.2)

/-- The exit-status skeleton of `main`: returns the exit code and whether
the JSON output file was written.  A missing input file returns 1 before any
measurement; zero collected samples returns 1 before the JSON block; with at
least one sample, the JSON file is written exactly when `--output` was
given, and the run exits 0. -/
def mainRun (fileExists : Bool) (d : DriverSet) (threadCounts : List Int)
    (outputRequested : Bool) : Int × Bool :=
  if fileExists = false then (1, false)
  else if (mainCollect d threadCounts).1 = [] then (1, false)
  else (0, outputRequested)

-- ── C5 ───────────────────────────────────────────────────────────────────────

/-- Sample the laspy lazrs-parallel driver would return at thread count 2. -/
def sample2W : BenchResult := ⟨"laspy (lazrs-parallel)", "read", 2, 0, 7⟩

/-- Driver set for the C5 counterexample: the laspy lazrs-parallel backend
fails at thread count 1 and succeeds at thread count 2; everything else is
unavailable. -/
def dCounter : DriverSet :=
  ⟨some (Except.ok []), true,
    (fun n => if n = 1 then Except.error "boom" else Except.ok [sample2W]),
    false, (fun _ => Except.ok []), false, Except.ok [], false, Except.ok []⟩

/-- C5 counterexample: the laspy lazrs-parallel driver fails at thread count
1 but would succeed at thread count 2, yet the thread-count-2 cell's sample
is absent from the collected results: because the `try:` in `main` wraps the
whole per-backend thread-count loop, a failure at one thread count skips the
remaining thread counts of the same tool, contradicting the claim that all
other cells of the matrix (including other thread counts of the same tool)
are still attempted. -/
theorem main_cell_failure_aborts_sibling_cells :
    dCounter.laspyParRun 2 = Except.ok [sample2W] ∧
    sample2W ∉ (mainCollect dCounter [1, 2]).1 := by
  constructor
  · rfl
  · intro h
    rw [show (mainCollect dCounter [1, 2]).1 = [] from rfl] at h
    exact List.not_mem_nil _ h

/-- C5 (amended): a driver failure is caught at the per-tool-section boundary
of `main`: a warning naming the tool and the cause is recorded, the samples
the failing laspy backend had collected at earlier thread counts are kept,
and every other section's successful samples are still collected; but the
remaining thread counts of the same backend after the failing one are not
attempted. -/
theorem main_section_boundary (d : DriverSet) (tcs : List Int)
    (failed : List BenchResult) (e : String)
    (hav : d.laspyParAvail = true)
    (hfail : runLaspyBackendCells d.laspyParRun tcs = (failed, some e)) :
    ("WARNING: laspy (lazrs-parallel) benchmark failed: " ++ e) ∈
      (mainCollect d tcs).2 ∧
    (∀ r ∈ failed, r ∈ (mainCollect d tcs).1) ∧
    (∀ rs, d.cppRun = some (Except.ok rs) →
      ∀ r ∈ rs, r ∈ (mainCollect d tcs).1) ∧
    (∀ rs, d.laspyLaszipAvail = true →
      runLaspyBackendCells d.laspyLaszipRun [1] = (rs, none) →
      ∀ r ∈ rs, r ∈ (mainCollect d tcs).1) ∧
    (∀ rs, d.lazrsAvail = true → d.lazrsRun = Except.ok rs →
      ∀ r ∈ rs, r ∈ (mainCollect d tcs).1) ∧
    (∀ rs, d.pdalAvail = true → d.pdalRun = Except.ok rs →
      ∀ r ∈ rs, r ∈ (mainCollect d tcs).1) := by
  have hpar : runLaspySection d.laspyParAvail d.laspyParRun
      "laspy (lazrs-parallel)" tcs =
      (failed, ["WARNING: laspy (lazrs-parallel) benchmark failed: " ++ e]) := by
    rw [hav]
    simp [runLaspySection, hfail]
  refine ⟨?_, ?_, ?_, ?_, ?_, ?_⟩
  · simp [mainCollect, hpar, List.mem_append]
  · intro r hr
    simp only [mainCollect, hpar, List.mem_append]
    tauto
  · intro rs hcpp r hr
    have hsec : (runCppSection d.cppRun).1 = rs := by
      rw [hcpp]
      rfl
    simp only [mainCollect, List.mem_append, hsec]
    tauto
  · intro rs hlav hlz r hr
    have hsec : (runLaspySection d.laspyLaszipAvail d.laspyLaszipRun
        "laspy (laszip)" [1]).1 = rs := by
      rw [hlav]
      simp [runLaspySection, hlz]
    simp only [mainCollect, List.mem_append, hsec]
    tauto
  · intro rs hlav hrun r hr
    have hsec : (runSimpleSection d.lazrsAvail d.lazrsRun "lazrs").1 = rs := by
      rw [hlav]
      simp [runSimpleSection, hrun]
    simp only [mainCollect, List.mem_append, hsec]
    tauto
  · intro rs hlav hrun r hr
    have hsec : (runSimpleSection d.pdalAvail d.pdalRun "PDAL").1 = rs := by
      rw [hlav]
      simp [runSimpleSection, hrun]
    simp only [mainCollect, List.mem_append, hsec]
    tauto

/-- Concrete samples for the C5 witness, one per tool section. -/
def sampleC : BenchResult := ⟨"laspp", "read", 1, 0, 1⟩

/-- laspy lazrs-parallel sample collected at thread count 1. -/
def sampleP1 : BenchResult := ⟨"laspy (lazrs-parallel)", "read", 1, 0, 1⟩

/-- laspy laszip sample. -/
def sampleL : BenchResult := ⟨"laspy (laszip)", "read", 1, 0, 1⟩

/-- lazrs sample. -/
def sampleR : BenchResult := ⟨"lazrs", "read", 0, 0, 1⟩

/-- PDAL sample. -/
def sampleD : BenchResult := ⟨"pdal", "read", 0, 0, 1⟩

/-- Driver set for the C5 witness: the laspy lazrs-parallel backend succeeds
at thread count 1 and fails at thread count 2; all other sections succeed. -/
def dWitness : DriverSet :=
  ⟨some (Except.ok [sampleC]), true,
    (fun n => if n = 1 then Except.ok [sampleP1] else Except.error "boom"),
    true, (fun _ => Except.ok [sampleL]), true, Except.ok [sampleR],
    true, Except.ok [sampleD]⟩

/-- Witness for C5 at the concrete driver set `dWitness`. -/
theorem main_section_boundary_witness :
    dWitness.laspyParAvail = true ∧
    runLaspyBackendCells dWitness.laspyParRun [1, 2] =
      ([sampleP1], some "boom") ∧
    (("WARNING: laspy (lazrs-parallel) benchmark failed: " ++ "boom") ∈
      (mainCollect dWitness [1, 2]).2 ∧
    (∀ r ∈ [sampleP1], r ∈ (mainCollect dWitness [1, 2]).1) ∧
    (∀ rs, dWitness.cppRun = some (Except.ok rs) →
      ∀ r ∈ rs, r ∈ (mainCollect dWitness [1, 2]).1) ∧
    (∀ rs, dWitness.laspyLaszipAvail = true →
      runLaspyBackendCells dWitness.laspyLaszipRun [1] = (rs, none) →
      ∀ r ∈ rs, r ∈ (mainCollect dWitness [1, 2]).1) ∧
    (∀ rs, dWitness.lazrsAvail = true → dWitness.lazrsRun = Except.ok rs →
      ∀ r ∈ rs, r ∈ (mainCollect dWitness [1, 2]).1) ∧
    (∀ rs, dWitness.pdalAvail = true → dWitness.pdalRun = Except.ok rs →
      ∀ r ∈ rs, r ∈ (mainCollect dWitness [1, 2]).1)) :=
  ⟨rfl, rfl,
    main_section_boundary dWitness [1, 2] [sampleP1] "boom" rfl rfl⟩

-- ── C8 ───────────────────────────────────────────────────────────────────────

/-- C8: `main` returns 1 when the input file does not exist (before any
measurement) and 1 when zero raw samples were collected across all cells; in
the zero-sample case no JSON output file is written even when an output path
was given; and `main` returns 0 exactly when the file exists and at least
one sample was collected. -/
theorem main_exit_behaviour (fe : Bool) (d : DriverSet) (tcs : List Int)
    (outputRequested : Bool) :
    (fe = false → mainRun fe d tcs outputRequested = (1, false)) ∧
    ((mainCollect d tcs).1 = [] →
      (mainRun fe d tcs outputRequested).1 = 1 ∧
      (mainRun fe d tcs outputRequested).2 = false) ∧
    ((mainRun fe d tcs outputRequested).1 = 0 ↔
      fe = true ∧ (mainCollect d tcs).1 ≠ []) := by
  refine ⟨?_, ?_, ?_⟩
  · intro h
    simp [mainRun, h]
  · intro h
    cases fe with
    | false => simp [mainRun]
    | true => simp [mainRun, h]
  · cases fe with
    | false => simp [mainRun]
    | true =>
        by_cases h : (mainCollect d tcs).1 = [] <;> simp [mainRun, h]

/-- Driver set with every tool unavailable (zero samples collected). -/
def dEmpty : DriverSet :=
  ⟨none, false, (fun _ => Except.ok []), false, (fun _ => Except.ok []),
    false, Except.ok [], false, Except.ok []⟩

/-- Witness for C8: a missing file exits 1 without writing, a zero-sample
run exits 1 without writing, and the successful run's exit code is 0 iff
samples were collected. -/
theorem main_exit_behaviour_witness :
    mainRun false dWitness [1, 2] true = (1, false) ∧
    ((mainRun true dEmpty [] true).1 = 1 ∧
      (mainRun true dEmpty [] true).2 = false) ∧
    ((mainRun true dWitness [1, 2] true).1 = 0 ↔
      true = true ∧ (mainCollect dWitness [1, 2]).1 ≠ []) :=
  ⟨(main_exit_behaviour false dWitness [1, 2] true).1 rfl,
   (main_exit_behaviour true dEmpty [] true).2.1 rfl,
   (main_exit_behaviour true dWitness [1, 2] true).2.2⟩

-- ── C6 ───────────────────────────────────────────────────────────────────────

/-- Model of an `os.environ` mapping as an association list. -/
def envGet : List (String × String) → String → Option String
  | [], _ => none
  | (k0, v0) :: rest, k => if k0 = k then some v0 else envGet rest k

/-- Model of dict assignment `env[key] = v`. -/
def envSet (env : List (String × String)) (key v : String) :
    List (String × String) :=
  match env with
  | [] => [(key, v)]
  | (k0, v0) :: rest =>
      if k0 = key then (k0, v) :: rest
      else (k0, v0) :: envSet rest key v

/-- The environment handling of the subprocess-isolated branch of
`benchmark_laspy_read`: `env = os.environ.copy()`,
`env["RAYON_NUM_THREADS"] = str(num_threads)`, and the spawned child gets
`env` while the parent's own `os.environ` is never assigned; the child
script additionally re-asserts the same variable before importing laspy.
Returns (parent environment after the call, environment given to the
child). -/
def laspySubprocessEnv (parentEnv : List (String × String)) (numThreads : Int) :
    List (String × String) × List (String × String) :=
  let env := parentEnv
  let env2 := envSet env "RAYON_NUM_THREADS" (toString numThreads)
  (parentEnv, env2)

theorem envGet_envSet_same (env : List (String × String)) (k v : String) :
    envGet (envSet env k v) k = some v := by
  induction env with
  | nil => simp [envSet, envGet]
  | cons hd tl ih =>
      obtain ⟨k0, v0⟩ := hd
      by_cases h : k0 = k
      · subst h
        simp [envSet, envGet]
      · simp [envSet, envGet, h, ih]

theorem envGet_envSet_other (env : List (String × String)) (k v k' : String)
    (h : k' ≠ k) : envGet (envSet env k v) k' = envGet env k' := by
  have h2 : ¬ k = k' := fun hc => h hc.symm
  induction env with
  | nil => simp [envSet, envGet, h2]
  | cons hd tl ih =>
      obtain ⟨k0, v0⟩ := hd
      by_cases h0 : k0 = k
      · subst h0
        simp [envSet, envGet, h2]
      · simp [envSet, envGet, h0, ih]

/-- C6: the subprocess-isolated driver sets `RAYON_NUM_THREADS` only in the
environment of the freshly spawned child: the parent's environment mapping
is identical before and after the driver call, the child's environment holds
the requested thread count, and every other variable is passed through
unchanged — the driver does not mutate-and-restore the parent's own
environment to control the thread pool. -/
theorem subprocess_env_isolation (parentEnv : List (String × String))
    (n : Int) :
    (laspySubprocessEnv parentEnv n).1 = parentEnv ∧
    envGet (laspySubprocessEnv parentEnv n).2 "RAYON_NUM_THREADS" =
      some (toString n) ∧
    (∀ k, k ≠ "RAYON_NUM_THREADS" →
      envGet (laspySubprocessEnv parentEnv n).2 k = envGet parentEnv k) :=
  ⟨rfl, envGet_envSet_same parentEnv _ _,
    fun k hk => envGet_envSet_other parentEnv _ _ k hk⟩

/-- Witness for C6 at a one-variable parent environment and thread count 4. -/
theorem subprocess_env_isolation_witness :
    (laspySubprocessEnv [("PATH", "/usr/bin")] 4).1 = [("PATH", "/usr/bin")] ∧
    envGet (laspySubprocessEnv [("PATH", "/usr/bin")] 4).2 "RAYON_NUM_THREADS" =
      some (toString (4 : Int)) ∧
    envGet (laspySubprocessEnv [("PATH", "/usr/bin")] 4).2 "PATH" =
      envGet [("PATH", "/usr/bin")] "PATH" :=
  ⟨(subprocess_env_isolation [("PATH", "/usr/bin")] 4).1,
   (subprocess_env_isolation [("PATH", "/usr/bin")] 4).2.1,
   (subprocess_env_isolation [("PATH", "/usr/bin")] 4).2.2 "PATH" (by decide)⟩

-- ── C7 ───────────────────────────────────────────────────────────────────────

/-- Model of `benchmark_lazrs_read`: an absent lazrs package returns the
empty list (the skip condition); the initial API-probe invocation of the
workload (`_read()`, or its fallback — the two probe paths are collapsed
since both either select a read function or return `[]`) runs the read once,
returning `[]` on failure; warmup-loop failures propagate as exceptions;
the timed loop builds one sample per iteration.  `calls k` is the outcome of
the k-th invocation of the read function: probe at index 0, warmups at
`1..warmup`, timed iterations after that. -/
def benchmark_lazrs_read (hasLazrs : Bool) (calls : Nat → Except String Rat)
    (warmup iterations : Nat) : Except String (List BenchResult) :=
  if hasLazrs then
    match calls 0 with
    | Except.error _ => Except.ok []
    | Except.ok _ =>
        match runWarmup calls 1 warmup with
        | Except.error e => Except.error e
        | Except.ok _ =>
            runTimedList calls
              (fun it t => ⟨"lazrs", "read", 0, (it : Int), t⟩)
              (1 + warmup) (List.range iterations)
  else Except.ok []

theorem runWarmup_first_error (calls : Nat → Except String Rat) (e : String) :
    ∀ (j w start : Nat), j < w → calls (start + j) = Except.error e →
      (∀ i, i < j → ∃ t, calls (start + i) = Except.ok t) →
      runWarmup calls start w = Except.error e := by
  intro j
  induction j with
  | zero =>
      intro w start hjw herr _
      cases w with
      | zero => omega
      | succ w' =>
          have h0 : calls start = Except.error e := by simpa using herr
          simp [runWarmup, h0]
  | succ j' ih =>
      intro w start hjw herr hok
      cases w with
      | zero => omega
      | succ w' =>
          obtain ⟨t, ht⟩ := hok 0 (Nat.succ_pos _)
          have ht' : calls start = Except.ok t := by simpa using ht
          simp only [runWarmup, ht']
          apply ih w' (start + 1) (by omega)
          · have harith : start + 1 + j' = start + (j' + 1) := by omega
            rw [harith]
            exact herr
          · intro i hi
            have h := hok (i + 1) (by omega)
            have harith : start + 1 + i = start + (i + 1) := by omega
            rw [harith]
            exact h

/-- C7: a failing warmup invocation makes the driver call produce zero
samples and a driver-level error, which is distinguishable from the `ok []`
the tool-unavailable skip produces (it is not an empty sample list); the
laspy in-process driver's warmup behaves the same way. -/
theorem warmup_failure_is_error (calls : Nat → Except String Rat)
    (warmup iterations : Nat) (j : Nat) (e : String) (t0 : Rat)
    (hprobe : calls 0 = Except.ok t0) (hj : j < warmup)
    (herr : calls (1 + j) = Except.error e)
    (hok : ∀ i, i < j → ∃ t, calls (1 + i) = Except.ok t)
    (calls2 : Nat → Except String Rat) (j2 : Nat) (e2 : String)
    (warmup2 iterations2 : Nat) (backendName : String) (nt : Option Int)
    (hj2 : j2 < warmup2) (herr2 : calls2 j2 = Except.error e2)
    (hok2 : ∀ i, i < j2 → ∃ t, calls2 i = Except.ok t) :
    benchmark_lazrs_read true calls warmup iterations = Except.error e ∧
    benchmark_lazrs_read false calls warmup iterations = Except.ok [] ∧
    laspyReadInProcess calls2 backendName nt warmup2 iterations2 =
      Except.error e2 ∧
    (Except.error e ≠ (Except.ok [] : Except String (List BenchResult))) := by
  refine ⟨?_, rfl, ?_, ?_⟩
  · have hw : runWarmup calls 1 warmup = Except.error e :=
      runWarmup_first_error calls e j warmup 1 hj herr hok
    simp [benchmark_lazrs_read, hprobe, hw]
  · have hw : runWarmup calls2 0 warmup2 = Except.error e2 := by
      apply runWarmup_first_error calls2 e2 j2 warmup2 0 hj2
      · rw [Nat.zero_add]
        exact herr2
      · intro i hi
        rw [Nat.zero_add]
        exact hok2 i hi
    simp [laspyReadInProcess, hw]
  · intro h
    exact Except.noConfusion h

/-- Workload-call outcomes for the C7 witness: the probe succeeds, every
later invocation fails. -/
def callsF : Nat → Except String Rat :=
  fun k => if k = 0 then Except.ok 1 else Except.error "io fail"

/-- Broken-workload call outcomes for the C7 witness's laspy part. -/
def callsB : Nat → Except String Rat := fun _ => Except.error "broken"

/-- Witness for C7: warmup failure at index 0 with one warmup iteration. -/
theorem warmup_failure_is_error_witness :
    callsF 0 = Except.ok 1 ∧ 0 < 1 ∧ callsF (1 + 0) = Except.error "io fail" ∧
    callsB 0 = Except.error "broken" ∧
    (benchmark_lazrs_read true callsF 1 3 = Except.error "io fail" ∧
     benchmark_lazrs_read false callsF 1 3 = Except.ok [] ∧
     laspyReadInProcess callsB "laspy (laszip)" (some 1) 1 3 =
       Except.error "broken" ∧
     (Except.error "io fail" ≠
       (Except.ok [] : Except String (List BenchResult)))) :=
  ⟨rfl, Nat.zero_lt_one, rfl, rfl,
    warmup_failure_is_error callsF 1 3 0 "io fail" 1 rfl Nat.zero_lt_one rfl
      (fun i hi => absurd hi (Nat.not_lt_zero i))
      callsB 0 "broken" 1 3 "laspy (laszip)" (some 1) Nat.zero_lt_one rfl
      (fun i hi => absurd hi (Nat.not_lt_zero i))⟩

end Benchmark
